import Mathlib

/-!
Verification of the cookie-extraction core of the `gateau` repository
(packages/gateau and packages/cli), as a shallow embedding in Lean 4.

Pure Rust functions become Lean functions on `Int` / `List UInt8` / `String`;
fallible code returns `Except`; a Rust panic is modelled as a dedicated error
constructor.  External crates (SQLite, the AES ciphers, DPAPI, the `time`
instant library, `String::from_utf8`) are modelled either as explicit
parameters of the embedded functions or as faithful reimplementations of
their documented behaviour (noted at each definition).
-/

namespace Gateau

/-! ## Data model: cookies and same-site policy (cookie crate) -/

/-- `cookie::SameSite` (the cookie crate): `None`, `Lax`, `Strict`. -/
inductive SameSite where
  | none
  | lax
  | strict
deriving DecidableEq, Repr

/-- A canonical cookie record, as built by both readers through
`CookieBuilder`.  The `cookie::time::OffsetDateTime` expiration is modelled
by its Unix timestamp in nanoseconds. -/
structure Cookie where
  name : String
  value : String
  domain : String
  path : String
  expiresUnixNanos : Int
  secure : Bool
  sameSite : SameSite
  httpOnly : Bool
deriving DecidableEq, Repr

/-! ## Timestamp codec (packages/gateau/src/chrome.rs, lines 99-117) -/

/-- Offset of the UNIX epoch from the Windows FILETIME epoch, in microseconds
(`WINDOWS_UNIX_EPOCH_OFFSET_MICROS` in chrome.rs, an `i64` constant). -/
def WINDOWS_UNIX_EPOCH_OFFSET_MICROS : Int := 11644473600000000

/-- `chrome_to_unix_timestamp_nanos` (chrome.rs): convert a Chrome timestamp
(microseconds since the Windows epoch, an `i64`) to a Unix timestamp in
nanoseconds, computed in Rust in `i128` arithmetic.  The mathematical value;
`i128wrap` below models the machine arithmetic. -/
def chrome_to_unix_timestamp_nanos (chrome_time : Int) : Int :=
  chrome_time * 1000 - WINDOWS_UNIX_EPOCH_OFFSET_MICROS * 1000

/-- Two-complement wrap-around of a mathematical integer into the `i128`
range, the result Rust's 128-bit signed arithmetic stores. -/
def i128wrap (x : Int) : Int :=
  (x + 2 ^ 127) % 2 ^ 128 - 2 ^ 127

/-- `i128wrap` is the identity on the `i128` range. -/
theorem i128wrap_eq_self {x : Int} (h₁ : -(2 ^ 127) ≤ x) (h₂ : x < 2 ^ 127) :
    i128wrap x = x := by
  unfold i128wrap
  have h0 : (0 : Int) ≤ x + 2 ^ 127 := by linarith
  have h1 : x + 2 ^ 127 < 2 ^ 128 := by
    have : (2 : Int) ^ 128 = 2 ^ 127 + 2 ^ 127 := by norm_num
    linarith
  rw [Int.emod_eq_of_lt h0 h1]
  ring

/-! ## Same-site decoding

Chrome reader (chrome.rs lines 311-315) and Gecko reader (firefox.rs lines
133-137) decode the same-site database column with the same three-armed
match. -/

/-- The `match same_site { 0 => None, 1 => Lax, _ => Strict }` arm of
`ChromeManager::get_cookies` (chrome.rs lines 311-315). -/
def chromeSameSiteOfInt (same_site : Int) : SameSite :=
  match same_site with
  | 0 => .none
  | 1 => .lax
  | _ => .strict

/-- The `match row.get(6)? { 0 => None, 1 => Lax, _ => Strict }` arm of
`FirefoxManager::get_cookies` (firefox.rs lines 133-137). -/
def firefoxSameSiteOfInt (sameSite : Int) : SameSite :=
  match sameSite with
  | 0 => .none
  | 1 => .lax
  | _ => .strict

/-! ## Claim C5: the Chrome timestamp conversion is exact -/

/-- C5: `chrome_to_unix_timestamp_nanos` is exact for every 64-bit signed
input `t`: the `i128` machine computation (widening `t`, multiplying by 1000
and subtracting the epoch offset in nanoseconds) never wraps and equals the
mathematical value `t * 1000 - 11644473600000000000`; the epoch offset input
maps to 0 and input 0 maps to -11644473600000000000 nanoseconds. -/
theorem chrome_to_unix_timestamp_nanos_exact (t : Int)
    (hlo : -(2 ^ 63) ≤ t) (hhi : t < 2 ^ 63) :
    i128wrap (i128wrap (t * 1000) - WINDOWS_UNIX_EPOCH_OFFSET_MICROS * 1000)
        = chrome_to_unix_timestamp_nanos t ∧
      chrome_to_unix_timestamp_nanos t = t * 1000 - 11644473600000000000 ∧
      chrome_to_unix_timestamp_nanos 11644473600000000 = 0 ∧
      chrome_to_unix_timestamp_nanos 0 = -11644473600000000000 := by
  have hmul : i128wrap (t * 1000) = t * 1000 := by
    apply i128wrap_eq_self <;> nlinarith [hlo, hhi]
  constructor
  · rw [hmul]
    have h : i128wrap (t * 1000 - WINDOWS_UNIX_EPOCH_OFFSET_MICROS * 1000)
        = t * 1000 - WINDOWS_UNIX_EPOCH_OFFSET_MICROS * 1000 := by
      apply i128wrap_eq_self <;>
        simp only [WINDOWS_UNIX_EPOCH_OFFSET_MICROS] <;> nlinarith [hlo, hhi]
    rw [h]
    simp [chrome_to_unix_timestamp_nanos]
  refine ⟨?_, by decide, by decide⟩
  unfold chrome_to_unix_timestamp_nanos WINDOWS_UNIX_EPOCH_OFFSET_MICROS
  norm_num

/-- Witness for C5 at the concrete input 11644473600000000 (the epoch
offset itself), which satisfies the `i64` range hypotheses. -/
theorem chrome_to_unix_timestamp_nanos_exact_witness :
    i128wrap (i128wrap ((11644473600000000 : Int) * 1000)
        - WINDOWS_UNIX_EPOCH_OFFSET_MICROS * 1000)
      = chrome_to_unix_timestamp_nanos 11644473600000000 ∧
    chrome_to_unix_timestamp_nanos 11644473600000000
        = 11644473600000000 * 1000 - 11644473600000000000 ∧
    chrome_to_unix_timestamp_nanos 11644473600000000 = 0 ∧
    chrome_to_unix_timestamp_nanos 0 = -11644473600000000000 :=
  chrome_to_unix_timestamp_nanos_exact 11644473600000000
    (by norm_num) (by norm_num)

/-! ## Claim C8: same-site decoding in both readers -/

/-- C8: both readers decode the same-site column as 0 → None, 1 → Lax, and
every other integer → Strict. -/
theorem same_site_decoding (v : Int) :
    chromeSameSiteOfInt 0 = SameSite.none ∧
    firefoxSameSiteOfInt 0 = SameSite.none ∧
    chromeSameSiteOfInt 1 = SameSite.lax ∧
    firefoxSameSiteOfInt 1 = SameSite.lax ∧
    (v ≠ 0 → v ≠ 1 →
      chromeSameSiteOfInt v = SameSite.strict ∧
        firefoxSameSiteOfInt v = SameSite.strict) := by
  refine ⟨rfl, rfl, rfl, rfl, fun h0 h1 => ⟨?_, ?_⟩⟩
  · unfold chromeSameSiteOfInt
    split <;> simp_all
  · unfold firefoxSameSiteOfInt
    split <;> simp_all

/-- Witness for C8 at the concrete code 2, which is neither 0 nor 1 and
decodes to Strict in both readers. -/
theorem same_site_decoding_witness :
    chromeSameSiteOfInt 0 = SameSite.none ∧
    firefoxSameSiteOfInt 0 = SameSite.none ∧
    chromeSameSiteOfInt 1 = SameSite.lax ∧
    firefoxSameSiteOfInt 1 = SameSite.lax ∧
    chromeSameSiteOfInt 2 = SameSite.strict ∧
    firefoxSameSiteOfInt 2 = SameSite.strict := by
  obtain ⟨a, b, c, d, e⟩ := same_site_decoding 2
  exact ⟨a, b, c, d, (e (by decide) (by decide)).1, (e (by decide) (by decide)).2⟩

/-! ## Model of the `time` crate's instant constructors

The `cookie` crate's expirations wrap `time::OffsetDateTime`, built with the
default feature set (no extended date range): valid instants run from
-9999-01-01T00:00:00Z (Unix second -377705116800) to
9999-12-31T23:59:59.999999999Z (Unix second 253402300799).  Both
constructors return `Err` outside that range; we model an instant by its
Unix timestamp. -/

/-- Model of `time::OffsetDateTime::from_unix_timestamp_nanos`: succeeds
exactly on nanosecond timestamps within the supported date range. -/
def from_unix_timestamp_nanos (nanos : Int) : Option Int :=
  if -377705116800000000000 ≤ nanos ∧ nanos ≤ 253402300799999999999 then
    some nanos
  else
    none

/-- Model of `time::OffsetDateTime::from_unix_timestamp`: succeeds exactly
on second timestamps within the supported date range. -/
def from_unix_timestamp (secs : Int) : Option Int :=
  if -377705116800 ≤ secs ∧ secs ≤ 253402300799 then some secs else none

/-! ## Chrome-family reader row pipeline (chrome.rs lines 246-323)

`get_cookies` runs `query_map` (whose closure only extracts the nine
columns), drops failed rows with `.filter_map(|cookie| cookie.ok())`, then
maps each surviving `ChromeCookie` through a closure that decrypts the value
and builds the `Cookie`, and finally `collect`s into
`Result<Vec<_>, ChromeManagerError>`, which stops at the first error.  The
rows are modelled as already-produced `query_map` outcomes; the decryptor
(`decrypt_cookie_value`, platform-specific) is a parameter. -/

/-- The `ChromeCookie` row struct of chrome.rs (one extracted row). -/
structure ChromeCookieRow where
  name : String
  value : String
  encrypted_value : List UInt8
  host : String
  path : String
  expires : Int
  secure : Bool
  same_site : Int
  http_only : Bool
deriving DecidableEq, Repr

/-- A failed `rusqlite` column extraction (the `Err` of a `query_map` row). -/
structure RowError where
  msg : String
deriving DecidableEq, Repr

/-- How the per-row mapping closure of `ChromeManager::get_cookies` can
fail: a decrypt error (wrapped as `ChromeManagerError::CookieValueDecrypt`,
source abstracted to a message), or the `.expect("Invalid date")` panic on
an out-of-range expiry. -/
inductive ChromeRowFailure where
  | cookieValueDecrypt (msg : String)
  | panicInvalidDate
deriving DecidableEq, Repr

/-- The per-row mapping closure of `ChromeManager::get_cookies` (chrome.rs
lines 281-318): use the plaintext `value` column when `encrypted_value` is
empty, otherwise decrypt; then build the `Cookie`, converting the expiry
through `chrome_to_unix_timestamp_nanos` and
`OffsetDateTime::from_unix_timestamp_nanos(..).expect("Invalid date")`. -/
def chromeBuildCookie (decrypt : List UInt8 → Except String String)
    (r : ChromeCookieRow) : Except ChromeRowFailure Cookie :=
  let value? : Except ChromeRowFailure String :=
    if r.encrypted_value = [] then .ok r.value
    else
      match decrypt r.encrypted_value with
      | .ok v => .ok v
      | .error e => .error (.cookieValueDecrypt e)
  match value? with
  | .error e => .error e
  | .ok value =>
    match from_unix_timestamp_nanos (chrome_to_unix_timestamp_nanos r.expires) with
    | none => .error .panicInvalidDate
    | some n =>
      .ok { name := r.name, value := value, domain := r.host, path := r.path,
            expiresUnixNanos := n, secure := r.secure,
            sameSite := chromeSameSiteOfInt r.same_site,
            httpOnly := r.http_only }

/-- The `collect::<Result<Vec<_>, _>>()` step over the mapped rows: stops at
the first failing row, otherwise returns every cookie in order. -/
def chromeCollect (decrypt : List UInt8 → Except String String) :
    List ChromeCookieRow → Except ChromeRowFailure (List Cookie)
  | [] => .ok []
  | r :: rs =>
    match chromeBuildCookie decrypt r with
    | .error e => .error e
    | .ok c =>
      match chromeCollect decrypt rs with
      | .error e => .error e
      | .ok cs => .ok (c :: cs)

/-- `ChromeManager::get_cookies` (chrome.rs lines 246-323) over the
`query_map` row outcomes: failed extractions are dropped by
`.filter_map(|cookie| cookie.ok())`, then the surviving rows are mapped and
collected. -/
def ChromeManager.get_cookies (decrypt : List UInt8 → Except String String)
    (rows : List (Except RowError ChromeCookieRow)) :
    Except ChromeRowFailure (List Cookie) :=
  chromeCollect decrypt (rows.filterMap Except.toOption)

/-! ## Gecko reader row pipeline (firefox.rs lines 103-147)

The `query_map` closure extracts the eight columns with `row.get(..)?`
(each failure makes the closure return `Err`, later dropped by
`.filter_map(|c| c.ok())`) and, between the expiry extraction and the
remaining columns, calls
`OffsetDateTime::from_unix_timestamp(..).expect("Invalid timestamp")`,
which panics (modelled as the outer `Except.error`) on an out-of-range
expiry.  The final `.collect::<Vec<_>>()` never fails. -/

/-- A Gecko `moz_cookies` row presented as the outcome of each
`row.get(..)` column extraction, in query column order. -/
structure FirefoxRawRow where
  name : Except RowError String
  value : Except RowError String
  host : Except RowError String
  path : Except RowError String
  expiry : Except RowError Int
  isSecure : Except RowError Int
  sameSite : Except RowError Int
  isHttpOnly : Except RowError Int

/-- Sequencing of one `row.get(..)?` inside the `query_map` closure: a
column failure ends the closure with `Err` (no panic), a success continues.
The outer `Except String` carries a panic out of the whole call. -/
def ffCol {α : Type} (c : Except RowError α)
    (k : α → Except String (Except RowError Cookie)) :
    Except String (Except RowError Cookie) :=
  match c with
  | .error e => .ok (.error e)
  | .ok a => k a

/-- The `query_map` closure of `FirefoxManager::get_cookies` (firefox.rs
lines 123-141): extract the columns in order, panicking (outer error) when
`from_unix_timestamp` rejects the expiry, with no clamping. -/
def firefoxRowClosure (r : FirefoxRawRow) :
    Except String (Except RowError Cookie) :=
  ffCol r.name fun name =>
  ffCol r.value fun value =>
  ffCol r.host fun host =>
  ffCol r.path fun path =>
  ffCol r.expiry fun expiry =>
  match from_unix_timestamp expiry with
  | none => .error "Invalid timestamp"
  | some secs =>
    ffCol r.isSecure fun isSecure =>
    ffCol r.sameSite fun sameSite =>
    ffCol r.isHttpOnly fun isHttpOnly =>
    .ok (.ok { name := name, value := value, domain := host, path := path,
               expiresUnixNanos := secs * 1000000000,
               secure := isSecure != 0,
               sameSite := firefoxSameSiteOfInt sameSite,
               httpOnly := isHttpOnly != 0 })

/-- The `.filter_map(|c| c.ok()).collect::<Vec<_>>()` iteration of
`FirefoxManager::get_cookies`: per row, a panic aborts everything, an
extraction failure is skipped, a cookie is kept. -/
def firefoxCollect : List FirefoxRawRow → Except String (List Cookie)
  | [] => .ok []
  | r :: rs =>
    match firefoxRowClosure r with
    | .error p => .error p
    | .ok (.error _) => firefoxCollect rs
    | .ok (.ok c) =>
      match firefoxCollect rs with
      | .error p => .error p
      | .ok cs => .ok (c :: cs)

/-- `FirefoxManager::get_cookies` (firefox.rs lines 103-147) over the raw
row outcomes. -/
def FirefoxManager.get_cookies (rows : List FirefoxRawRow) :
    Except String (List Cookie) :=
  firefoxCollect rows

/-! ## Helper lemmas on the row pipelines -/

/-- If some surviving row fails to build, `chromeCollect` returns an error
(the first one encountered). -/
theorem chromeCollect_error_of_mem
    {d : List UInt8 → Except String String} {l : List ChromeCookieRow}
    {r : ChromeCookieRow} {err : ChromeRowFailure}
    (hm : r ∈ l) (hb : chromeBuildCookie d r = .error err) :
    ∃ e₂, chromeCollect d l = .error e₂ := by
  induction l with
  | nil => cases hm
  | cons a l ih =>
    rcases List.mem_cons.mp hm with rfl | hm'
    · exact ⟨err, by simp [chromeCollect, hb]⟩
    · cases ha : chromeBuildCookie d a with
      | error e => exact ⟨e, by simp [chromeCollect, ha]⟩
      | ok c =>
        obtain ⟨e₂, h₂⟩ := ih hm'
        exact ⟨e₂, by simp [chromeCollect, ha, h₂]⟩

/-- A successful `chromeCollect` returns one cookie per input row. -/
theorem chromeCollect_ok_length
    {d : List UInt8 → Except String String} {l : List ChromeCookieRow}
    {cs : List Cookie} (h : chromeCollect d l = .ok cs) :
    cs.length = l.length := by
  induction l generalizing cs with
  | nil =>
    simp only [chromeCollect] at h
    cases h
    rfl
  | cons a l ih =>
    simp only [chromeCollect] at h
    cases ha : chromeBuildCookie d a with
    | error e => rw [ha] at h; cases h
    | ok c =>
      rw [ha] at h
      cases hl : chromeCollect d l with
      | error e => rw [hl] at h; cases h
      | ok cs' =>
        rw [hl] at h
        cases h
        simp [ih hl]

/-- `firefoxCollect` skips a row whose closure ends in a column-extraction
failure. -/
theorem firefoxCollect_skip {r : FirefoxRawRow} {e : RowError}
    (hr : firefoxRowClosure r = .ok (.error e))
    (pre post : List FirefoxRawRow) :
    firefoxCollect (pre ++ r :: post) = firefoxCollect (pre ++ post) := by
  induction pre with
  | nil => simp [firefoxCollect, hr]
  | cons a pre ih =>
    cases ha : firefoxRowClosure a with
    | error p => simp [firefoxCollect, ha]
    | ok o =>
      cases o with
      | error e' => simp [firefoxCollect, ha, ih]
      | ok c => simp [firefoxCollect, ha, ih]

/-! ## Claim C6: empty encrypted_value uses the plaintext column -/

/-- C6: for any Chrome row whose `encrypted_value` is empty, the built
cookie's value is exactly the plaintext `value` column, and the decryptor
is not invoked (the row's outcome is the same for every decryptor). -/
theorem chrome_empty_encrypted_value_plaintext
    (d d' : List UInt8 → Except String String) (r : ChromeCookieRow)
    (h : r.encrypted_value = []) :
    chromeBuildCookie d r = chromeBuildCookie d' r ∧
      ∀ c, chromeBuildCookie d r = .ok c → c.value = r.value := by
  constructor
  · simp [chromeBuildCookie, h]
  · intro c hc
    simp only [chromeBuildCookie, h, if_pos] at hc
    rcases hn : from_unix_timestamp_nanos (chrome_to_unix_timestamp_nanos r.expires)
      with _ | n
    · rw [hn] at hc
      cases hc
    · rw [hn] at hc
      cases hc
      rfl

/-- A well-formed extracted Chrome row with an empty `encrypted_value` and
the Unix-epoch expiry. -/
def sampleChromeRow : ChromeCookieRow :=
  { name := "sid", value := "plain", encrypted_value := [],
    host := "example.com", path := "/", expires := 11644473600000000,
    secure := true, same_site := 0, http_only := false }

/-- The cookie the Chrome pipeline builds from `sampleChromeRow`. -/
def sampleChromeCookie : Cookie :=
  { name := "sid", value := "plain", domain := "example.com", path := "/",
    expiresUnixNanos := 0, secure := true, sameSite := .none,
    httpOnly := false }

/-- Witness for C6 at `sampleChromeRow` with two decryptors that disagree
everywhere (one always fails): the row builds to the same cookie under
both, and its value is the plaintext column. -/
theorem chrome_empty_encrypted_value_plaintext_witness :
    chromeBuildCookie (fun _ => .error "boom") sampleChromeRow
        = chromeBuildCookie (fun _ => .ok "other") sampleChromeRow ∧
      ∀ c, chromeBuildCookie (fun _ => .error "boom") sampleChromeRow = .ok c →
        c.value = sampleChromeRow.value :=
  chrome_empty_encrypted_value_plaintext
    (fun _ => .error "boom") (fun _ => .ok "other") sampleChromeRow rfl

/-! ## Claim C2: failure policy of `get_cookies` -/

/-- C2 counterexample: a per-row column-extraction failure does not make
`ChromeManager::get_cookies` return an error; the failed row is silently
dropped and the remaining cookie is returned, even under a decryptor that
fails on every input. -/
theorem chrome_get_cookies_row_failure_not_terminal :
    ChromeManager.get_cookies (fun _ => .error "decrypt failure")
        [.error ⟨"column extraction failed"⟩, .ok sampleChromeRow]
      = .ok [sampleChromeCookie] := by
  rfl

/-- C2 as amended: (1) both readers silently skip a row whose column
extraction fails (Chrome drops the `Err` row before mapping; Gecko's
iteration drops it), so the call can succeed with the remaining cookies;
(2) a decrypt failure (or date panic) on any surviving Chrome row makes the
whole call fail; (3) a successful Chrome call returns exactly one cookie
per surviving row — no cookie is dropped on success. -/
theorem get_cookies_failure_policy :
    (∀ (d : List UInt8 → Except String String)
        (pre post : List (Except RowError ChromeCookieRow)) (e : RowError),
        ChromeManager.get_cookies d (pre ++ .error e :: post)
          = ChromeManager.get_cookies d (pre ++ post)) ∧
      (∀ (d : List UInt8 → Except String String)
          (rows : List (Except RowError ChromeCookieRow))
          (r : ChromeCookieRow) (err : ChromeRowFailure),
          r ∈ rows.filterMap Except.toOption →
          chromeBuildCookie d r = .error err →
          ∃ err₂, ChromeManager.get_cookies d rows = .error err₂) ∧
      (∀ (d : List UInt8 → Except String String)
          (rows : List (Except RowError ChromeCookieRow)) (cs : List Cookie),
          ChromeManager.get_cookies d rows = .ok cs →
          cs.length = (rows.filterMap Except.toOption).length) ∧
      (∀ (pre post : List FirefoxRawRow) (r : FirefoxRawRow) (e : RowError),
          firefoxRowClosure r = .ok (.error e) →
          FirefoxManager.get_cookies (pre ++ r :: post)
            = FirefoxManager.get_cookies (pre ++ post)) := by
  refine ⟨?_, ?_, ?_, ?_⟩
  · intro d pre post e
    unfold ChromeManager.get_cookies
    simp [List.filterMap_append, Except.toOption]
  · intro d rows r err hm hb
    exact chromeCollect_error_of_mem hm hb
  · intro d rows cs h
    exact chromeCollect_ok_length h
  · intro pre post r e hr
    exact firefoxCollect_skip hr pre post

/-- A Gecko row whose every column extraction succeeds. -/
def ffAllOkRow : FirefoxRawRow :=
  { name := .ok "sid", value := .ok "v", host := .ok "example.com",
    path := .ok "/", expiry := .ok 0, isSecure := .ok 1,
    sameSite := .ok 0, isHttpOnly := .ok 0 }

/-- Witness for C2-as-amended at concrete inputs: one failed extraction row
between two good rows is skipped; a failing decryptor on a surviving
encrypted row aborts the call; a successful call returns as many cookies as
surviving rows. -/
theorem get_cookies_failure_policy_witness :
    (ChromeManager.get_cookies (fun _ => .error "boom")
        ([] ++ .error ⟨"bad column"⟩ :: [.ok sampleChromeRow])
      = ChromeManager.get_cookies (fun _ => .error "boom")
        ([] ++ [.ok sampleChromeRow])) ∧
      (∃ err₂, ChromeManager.get_cookies (fun _ => .error "boom")
          [.ok { sampleChromeRow with encrypted_value := [1] }]
        = .error err₂) ∧
      ([sampleChromeCookie].length
        = ([.ok sampleChromeRow, .error ⟨"bad column"⟩].filterMap
            (Except.toOption (ε := RowError) (α := ChromeCookieRow))).length) ∧
      (FirefoxManager.get_cookies
          ([] ++ { ffAllOkRow with name := .error ⟨"bad column"⟩ } :: [ffAllOkRow])
        = FirefoxManager.get_cookies ([] ++ [ffAllOkRow])) := by
  refine ⟨?_, ?_, ?_, ?_⟩
  · exact (get_cookies_failure_policy).1 (fun _ => .error "boom") []
      [.ok sampleChromeRow] ⟨"bad column"⟩
  · exact (get_cookies_failure_policy).2.1 (fun _ => .error "boom")
      [.ok { sampleChromeRow with encrypted_value := [1] }]
      { sampleChromeRow with encrypted_value := [1] }
      (.cookieValueDecrypt "boom") (by decide) (by rfl)
  · exact (get_cookies_failure_policy).2.2.1 (fun _ => .error "boom")
      [.ok sampleChromeRow, .error ⟨"bad column"⟩] [sampleChromeCookie] (by rfl)
  · exact (get_cookies_failure_policy).2.2.2 []
      [ffAllOkRow] { ffAllOkRow with name := .error ⟨"bad column"⟩ }
      ⟨"bad column"⟩ (by rfl)

/-! ## Claim C3: Gecko out-of-range expiry -/

/-- A Gecko row whose expiry (253402300800) exceeds the maximum supported
instant (253402300799) by one second; every column extraction succeeds. -/
def ffBigExpiryRow : FirefoxRawRow :=
  { ffAllOkRow with expiry := .ok 253402300800 }

/-- C3 under the code as written: the time library accepts 253402300799 and
rejects 253402300800, and on the latter `FirefoxManager::get_cookies` hits
the `.expect("Invalid timestamp")` panic instead of clamping — the call
aborts rather than returning the cookie, contradicting the function's own
doc comment (firefox.rs lines 104-109), which promises the clamp. -/
theorem firefox_expiry_not_clamped_panics :
    from_unix_timestamp 253402300799 = some 253402300799 ∧
      from_unix_timestamp 253402300800 = none ∧
      firefoxRowClosure ffBigExpiryRow = .error "Invalid timestamp" ∧
      FirefoxManager.get_cookies [ffBigExpiryRow] = .error "Invalid timestamp" := by
  exact ⟨by decide, by decide, rfl, rfl⟩

/-! ## Windows value decryptor
(packages/gateau/src/browser/chrome/encrypted_value.rs lines 54-83)

The AES-256-GCM cipher is the external `aes_gcm` crate, modelled as the
`gcm` parameter (key, nonce, ciphertext → authenticated plaintext, `none`
on any authentication failure); `String::from_utf8` is the external `utf8`
parameter. -/

/-- `DecryptError` of encrypted_value.rs. -/
inductive DecryptError where
  | invalidInputLength
  | invalidInput
  | invalidUtf8
deriving DecidableEq, Repr

/-- `AEAD_NONCE_SIZE = 96 / 8` (encrypted_value.rs line 64). -/
def AEAD_NONCE_SIZE : Nat := 96 / 8

/-- The Windows `decrypt_value` (encrypted_value.rs lines 57-83):
`encrypted_value.get(..12)` is the nonce (`None`, hence
`InvalidInputLength`, when the input is shorter than 12 bytes),
`get(12..)` the authenticated ciphertext; a cipher failure yields
`InvalidInput`; a UTF-8 failure yields `InvalidUtf8`. -/
def decrypt_value
    (gcm : List UInt8 → List UInt8 → List UInt8 → Option (List UInt8))
    (utf8 : List UInt8 → Option String)
    (key encrypted_value : List UInt8) : Except DecryptError String :=
  if encrypted_value.length < AEAD_NONCE_SIZE then
    .error .invalidInputLength
  else
    match gcm key (encrypted_value.take AEAD_NONCE_SIZE)
        (encrypted_value.drop AEAD_NONCE_SIZE) with
    | none => .error .invalidInput
    | some pt =>
      match utf8 pt with
      | none => .error .invalidUtf8
      | some s => .ok s

/-! ## Claim C4: the Windows GCM path fails closed -/

/-- C4: for every 32-byte key and every tag-stripped input: an input of
at least 12 bytes is split into exactly the first 12 bytes of nonce and the
remaining authenticated ciphertext; a shorter input errors with
`InvalidInputLength`; a cipher (authentication) failure errors with
`InvalidInput`; and a returned plaintext always comes from a successful
authenticated decryption followed by a successful UTF-8 decode. -/
theorem decrypt_value_windows_fails_closed
    (gcm : List UInt8 → List UInt8 → List UInt8 → Option (List UInt8))
    (utf8 : List UInt8 → Option String)
    (key ev : List UInt8) (hkey : key.length = 32) :
    (ev.length < 12 →
      decrypt_value gcm utf8 key ev = .error .invalidInputLength) ∧
      (12 ≤ ev.length → gcm key (ev.take 12) (ev.drop 12) = none →
        decrypt_value gcm utf8 key ev = .error .invalidInput) ∧
      (∀ s, decrypt_value gcm utf8 key ev = .ok s →
        12 ≤ ev.length ∧
          ∃ pt, gcm key (ev.take 12) (ev.drop 12) = some pt ∧
            utf8 pt = some s) := by
  refine ⟨?_, ?_, ?_⟩
  · intro h
    simp [decrypt_value, AEAD_NONCE_SIZE, h]
  · intro h hg
    simp [decrypt_value, AEAD_NONCE_SIZE, Nat.not_lt.mpr h, hg]
  · intro s hs
    by_cases hlen : ev.length < 12
    · simp [decrypt_value, AEAD_NONCE_SIZE, hlen] at hs
    · refine ⟨Nat.not_lt.mp hlen, ?_⟩
      simp only [decrypt_value, AEAD_NONCE_SIZE] at hs
      norm_num [hlen] at hs
      rcases hg : gcm key (ev.take 12) (ev.drop 12) with _ | pt
      · rw [hg] at hs
        cases hs
      · rw [hg] at hs
        rcases hu : utf8 pt with _ | s'
        · simp [hu] at hs
        · simp [hu] at hs
          exact ⟨pt, rfl, by rw [hu, hs]⟩

/-- Witness for C4 with a 32-byte key, a 12-byte input and an
always-rejecting cipher: the result is the `InvalidInput` decryption
error. -/
theorem decrypt_value_windows_fails_closed_witness :
    decrypt_value (fun _ _ _ => none) (fun _ => some "")
        (List.replicate 32 0) (List.replicate 12 0)
      = .error .invalidInput := by
  refine (decrypt_value_windows_fails_closed (fun _ _ _ => none)
    (fun _ => some "") (List.replicate 32 0) (List.replicate 12 0)
    (by simp)).2.1 (by simp) rfl

/-! ## Linux key acquisition and the per-Reader key cache
(chrome.rs lines 174-180 and 326-369)

`ChromeManager` holds `key_cache: OnceCell<Vec<u8>>`;
`decrypt_cookie_value` (the `cfg(all(unix, not(macos)))` version) reads the
3-byte tag: `v11` fetches the key through
`key_cache.get_or_try_init(|| linux::get_v11_key(variant))`, `v10` uses the
hardcoded `posix::CHROME_V10_KEY`, anything else is treated as UTF-8
plaintext.  The external pieces are parameters: `dv` is the Unix AES-CBC
`decrypt_value`, `utf8` is `String::from_utf8`, and `acquire` is the
outcome `linux::get_v11_key` would produce if run during this call. -/

/-- `posix::CHROME_V10_KEY` (posix.rs lines 11-13). -/
def CHROME_V10_KEY : List UInt8 :=
  [253, 98, 31, 229, 162, 180, 2, 83, 157, 250, 20, 124, 169, 39, 39, 120]

/-- `HEADER_LEN = 3` (chrome.rs line 332). -/
def HEADER_LEN : Nat := 3

/-- The bytes of the `v11` version tag. -/
def V11_TAG : List UInt8 := [118, 49, 49]

/-- The bytes of the `v10` version tag. -/
def V10_TAG : List UInt8 := [118, 49, 48]

/-- `DecryptChromeCookieError` (chrome.rs lines 119-150), sources
abstracted to messages; only the variants reachable on the Linux path. -/
inductive DecryptChromeCookieError where
  | getKey (key_variant : String) (msg : String)
  | cookieValueDecrypt (msg : String)
  | cookieValueUtf8Decode
deriving DecidableEq, Repr

/-- Outcome of one Linux `decrypt_cookie_value` call: its result, the key
cache afterwards, and whether the underlying `linux::get_v11_key`
acquisition ran during the call. -/
structure DecryptCallOutcome where
  result : Except DecryptChromeCookieError String
  cache : Option (List UInt8)
  acquired : Bool

/-- The Linux `ChromeManager::decrypt_cookie_value` (chrome.rs lines
326-369), with the `OnceCell` state passed explicitly: a `v11` tag reads
the cached key or runs the acquisition (`get_or_try_init`: a success is
stored, a failure leaves the cell empty); a `v10` tag uses the hardcoded
POSIX key; an untagged value is decoded as UTF-8 plaintext. -/
def decrypt_cookie_value
    (dv : List UInt8 → List UInt8 → Except String String)
    (utf8 : List UInt8 → Option String)
    (acquire : Except String (List UInt8))
    (cache : Option (List UInt8))
    (encrypted_value : List UInt8) : DecryptCallOutcome :=
  let applyDv : List UInt8 → Except DecryptChromeCookieError String :=
    fun k =>
      match dv k (encrypted_value.drop HEADER_LEN) with
      | .ok s => .ok s
      | .error e => .error (.cookieValueDecrypt e)
  if encrypted_value.take HEADER_LEN = V11_TAG then
    match cache with
    | some k => { result := applyDv k, cache := some k, acquired := false }
    | none =>
      match acquire with
      | .ok k => { result := applyDv k, cache := some k, acquired := true }
      | .error e =>
        { result := .error (.getKey "v11" e), cache := none, acquired := true }
  else if encrypted_value.take HEADER_LEN = V10_TAG then
    { result := applyDv CHROME_V10_KEY, cache := cache, acquired := false }
  else
    { result :=
        match utf8 encrypted_value with
        | some s => .ok s
        | none => .error .cookieValueUtf8Decode,
      cache := cache, acquired := false }

/-- A sequence of `decrypt_cookie_value` calls on one `ChromeManager`,
threading the `OnceCell` key cache; returns the final cache and how many
calls ran the underlying acquisition successfully. -/
def runDecryptCalls
    (dv : List UInt8 → List UInt8 → Except String String)
    (utf8 : List UInt8 → Option String) :
    Option (List UInt8) → List (Except String (List UInt8) × List UInt8) →
      Option (List UInt8) × Nat
  | cache, [] => (cache, 0)
  | cache, (acquire, ev) :: rest =>
    let o := decrypt_cookie_value dv utf8 acquire cache ev
    let r := runDecryptCalls dv utf8 o.cache rest
    (r.1, (if o.acquired ∧ acquire.toOption.isSome then 1 else 0) + r.2)

/-- With a populated cache, no call ever runs the acquisition and the cache
never changes. -/
theorem decrypt_cookie_value_cached
    (dv : List UInt8 → List UInt8 → Except String String)
    (utf8 : List UInt8 → Option String)
    (acquire : Except String (List UInt8)) (k : List UInt8)
    (ev : List UInt8) :
    (decrypt_cookie_value dv utf8 acquire (some k) ev).acquired = false ∧
      (decrypt_cookie_value dv utf8 acquire (some k) ev).cache = some k := by
  simp only [decrypt_cookie_value]
  by_cases h11 : ev.take HEADER_LEN = V11_TAG
  · rw [if_pos h11]
    exact ⟨rfl, rfl⟩
  · by_cases h10 : ev.take HEADER_LEN = V10_TAG
    · rw [if_neg h11, if_pos h10]
      exact ⟨rfl, rfl⟩
    · rw [if_neg h11, if_neg h10]
      exact ⟨rfl, rfl⟩

/-- From a populated cache, a whole call sequence performs zero successful
acquisitions and preserves the cache. -/
theorem runDecryptCalls_cached
    (dv : List UInt8 → List UInt8 → Except String String)
    (utf8 : List UInt8 → Option String) (k : List UInt8)
    (calls : List (Except String (List UInt8) × List UInt8)) :
    runDecryptCalls dv utf8 (some k) calls = (some k, 0) := by
  induction calls with
  | nil => rfl
  | cons c rest ih =>
    obtain ⟨ha, hc⟩ := decrypt_cookie_value_cached dv utf8 c.1 k c.2
    simp only [runDecryptCalls, ha, hc, ih]
    simp

/-- With an empty cache, a `v11` value runs the acquisition and the cell
ends up holding exactly a successful acquisition's key; any other value
leaves the cell empty without running the acquisition. -/
theorem decrypt_cookie_value_uncached
    (dv : List UInt8 → List UInt8 → Except String String)
    (utf8 : List UInt8 → Option String)
    (acquire : Except String (List UInt8)) (ev : List UInt8) :
    (ev.take HEADER_LEN = V11_TAG →
      (decrypt_cookie_value dv utf8 acquire none ev).acquired = true ∧
        (decrypt_cookie_value dv utf8 acquire none ev).cache
          = acquire.toOption) ∧
      (ev.take HEADER_LEN ≠ V11_TAG →
        (decrypt_cookie_value dv utf8 acquire none ev).acquired = false ∧
          (decrypt_cookie_value dv utf8 acquire none ev).cache = none) := by
  constructor
  · intro h11
    simp only [decrypt_cookie_value]
    rw [if_pos h11]
    cases acquire with
    | ok k => exact ⟨rfl, rfl⟩
    | error e => exact ⟨rfl, rfl⟩
  · intro h11
    simp only [decrypt_cookie_value]
    by_cases h10 : ev.take HEADER_LEN = V10_TAG
    · rw [if_neg h11, if_pos h10]
      exact ⟨rfl, rfl⟩
    · rw [if_neg h11, if_neg h10]
      exact ⟨rfl, rfl⟩

/-! ## Claim C9: per-instance key memoization -/

/-- C9: across any sequence of Linux `decrypt_cookie_value` calls on one
`ChromeManager`, (1) a populated key cell is reused unchanged and the
acquisition never runs again, (2) a successful acquisition stores its key
in the cell, (3) a failed acquisition leaves the cell empty (so a later
call retries), and (4) the underlying acquisition succeeds at most once in
the whole sequence. -/
theorem key_acquisition_memoized
    (dv : List UInt8 → List UInt8 → Except String String)
    (utf8 : List UInt8 → Option String) :
    (∀ (acquire : Except String (List UInt8)) (k ev : List UInt8),
      (decrypt_cookie_value dv utf8 acquire (some k) ev).acquired = false ∧
        (decrypt_cookie_value dv utf8 acquire (some k) ev).cache = some k) ∧
      (∀ (k ev : List UInt8), ev.take HEADER_LEN = V11_TAG →
        (decrypt_cookie_value dv utf8 (.ok k) none ev).cache = some k) ∧
      (∀ (e : String) (ev : List UInt8), ev.take HEADER_LEN = V11_TAG →
        (decrypt_cookie_value dv utf8 (.error e) none ev).cache = none) ∧
      (∀ (cache : Option (List UInt8))
          (calls : List (Except String (List UInt8) × List UInt8)),
        (runDecryptCalls dv utf8 cache calls).2 ≤ 1) := by
  refine ⟨fun acquire k ev => decrypt_cookie_value_cached dv utf8 acquire k ev,
    ?_, ?_, ?_⟩
  · intro k ev h11
    exact ((decrypt_cookie_value_uncached dv utf8 (.ok k) ev).1 h11).2
  · intro e ev h11
    exact ((decrypt_cookie_value_uncached dv utf8 (.error e) ev).1 h11).2
  · intro cache calls
    cases cache with
    | some k => simp [runDecryptCalls_cached]
    | none =>
      induction calls with
      | nil => simp [runDecryptCalls]
      | cons c rest ih =>
        obtain ⟨acq, ev⟩ := c
        by_cases h11 : ev.take HEADER_LEN = V11_TAG
        · obtain ⟨ha, hc⟩ := (decrypt_cookie_value_uncached dv utf8 acq ev).1 h11
          cases acq with
          | ok k =>
            simp only [runDecryptCalls, ha, hc, Except.toOption]
            rw [runDecryptCalls_cached]
            simp
          | error e =>
            simp only [runDecryptCalls, ha, hc, Except.toOption]
            simpa using ih
        · obtain ⟨ha, hc⟩ := (decrypt_cookie_value_uncached dv utf8 acq ev).2 h11
          simp only [runDecryptCalls, ha, hc]
          simpa using ih

/-- Witness for C9 with a trivial cipher and concrete keys and tags: a
populated cell survives a call untouched, a successful acquisition fills
the cell, a failed one leaves it empty, and a two-call sequence performs at
most one successful acquisition. -/
theorem key_acquisition_memoized_witness :
    (decrypt_cookie_value (fun _ _ => .ok "pt") (fun _ => some "s")
        (.ok [2]) (some [1]) (V11_TAG ++ [0])).cache = some [1] ∧
      (decrypt_cookie_value (fun _ _ => .ok "pt") (fun _ => some "s")
          (.ok [2]) none (V11_TAG ++ [0])).cache = some [2] ∧
      (decrypt_cookie_value (fun _ _ => .ok "pt") (fun _ => some "s")
          (.error "denied") none (V11_TAG ++ [0])).cache = none ∧
      (runDecryptCalls (fun _ _ => .ok "pt") (fun _ => some "s") none
          [(.ok [2], V11_TAG ++ [0]), (.ok [3], V11_TAG ++ [0])]).2 ≤ 1 := by
  have h := key_acquisition_memoized (fun _ _ => .ok "pt") (fun _ => some "s")
  exact ⟨(h.1 (.ok [2]) [1] (V11_TAG ++ [0])).2,
    h.2.1 [2] (V11_TAG ++ [0]) (by decide),
    h.2.2.1 "denied" (V11_TAG ++ [0]) (by decide),
    h.2.2.2 none [(.ok [2], V11_TAG ++ [0]), (.ok [3], V11_TAG ++ [0])]⟩

/-! ## Windows DPAPI-wrapped key
(packages/gateau/src/chrome/encrypted_value/windows.rs lines 86-129)

`decrypt_dpapi_encrypted_key` base64-decodes the `os_crypt.encrypted_key`
string from the local-state file (the strict, padded `base64ct` decoder,
reimplemented below), validates the 5-byte `DPAPI` marker, slices the
buffer from `DPAPI_PREFIX.len() - 1` and hands the slice to
`CryptUnprotectData` (the external `dpapi` parameter). -/

/-- Value of one character in the standard base64 alphabet. -/
def b64Val (c : Char) : Option Nat :=
  if 'A' ≤ c ∧ c ≤ 'Z' then some (c.toNat - 'A'.toNat)
  else if 'a' ≤ c ∧ c ≤ 'z' then some (c.toNat - 'a'.toNat + 26)
  else if '0' ≤ c ∧ c ≤ '9' then some (c.toNat - '0'.toNat + 52)
  else if c = '+' then some 62
  else if c = '/' then some 63
  else none

/-- Strict base64 block decoding: four characters at a time, padding only
in a final block, spare padding bits required to be zero (the `base64ct`
crate rejects non-canonical encodings). -/
def b64DecodeChunks : List Char → Option (List UInt8)
  | [] => some []
  | c1 :: c2 :: c3 :: c4 :: rest =>
    match b64Val c1, b64Val c2 with
    | some v1, some v2 =>
      if c3 = '=' then
        if c4 = '=' ∧ rest = [] ∧ v2 % 16 = 0 then
          some [UInt8.ofNat (v1 * 4 + v2 / 16)]
        else none
      else
        match b64Val c3 with
        | some v3 =>
          if c4 = '=' then
            if rest = [] ∧ v3 % 4 = 0 then
              some [UInt8.ofNat (v1 * 4 + v2 / 16),
                UInt8.ofNat (v2 % 16 * 16 + v3 / 4)]
            else none
          else
            match b64Val c4 with
            | some v4 =>
              match b64DecodeChunks rest with
              | some bs =>
                some (UInt8.ofNat (v1 * 4 + v2 / 16) ::
                  UInt8.ofNat (v2 % 16 * 16 + v3 / 4) ::
                  UInt8.ofNat (v3 % 4 * 64 + v4) :: bs)
              | none => none
            | none => none
        | none => none
    | _, _ => none
  | _ => none

/-- Model of `base64ct::Base64::decode_vec` (standard alphabet, padding
required). -/
def base64_decode (s : String) : Option (List UInt8) :=
  b64DecodeChunks s.toList

/-- `DPAPI_PREFIX` (windows.rs line 87): the ASCII bytes of `DPAPI`. -/
def DPAPI_MARKER : List UInt8 := [68, 80, 65, 80, 73]

/-- `DecryptDpapiKeyError` (windows.rs lines 89-109): invalid base64, a
missing `DPAPI` marker, or a DPAPI unwrapping failure. -/
inductive DecryptDpapiKeyError where
  | invalidKeyFormat
  | invalidKeyMarker (key : List UInt8)
  | decryptError
deriving DecidableEq, Repr

/-- `decrypt_dpapi_encrypted_key` (windows.rs lines 112-129): base64-decode
the key; error unless the bytes start with the `DPAPI` marker; then slice
the buffer with `get_mut(DPAPI_PREFIX.len() - 1..)` — i.e. from byte index
4, keeping the marker's final byte — and DPAPI-unwrap the slice. -/
def decrypt_dpapi_encrypted_key
    (dpapi : List UInt8 → Option (List UInt8))
    (encrypted_key : String) : Except DecryptDpapiKeyError (List UInt8) :=
  match base64_decode encrypted_key with
  | none => .error .invalidKeyFormat
  | some bytes =>
    if bytes.take DPAPI_MARKER.length = DPAPI_MARKER then
      match dpapi (bytes.drop (DPAPI_MARKER.length - 1)) with
      | some v => .ok v
      | none => .error .decryptError
    else
      .error (.invalidKeyMarker bytes)

/-! ## Claim C1: the DPAPI marker is not fully stripped -/

/-- C1 under the code as written, evaluated with a DPAPI oracle that
returns its own input (so the `ok` payload is exactly the byte slice the
code hands to `CryptUnprotectData`): for the local-state key
`"RFBBUElLRVk="` — base64 of the bytes `DPAPIKEY` — the code passes
`IKEY` (`[73, 75, 69, 89]`), retaining the marker's final byte `I`,
instead of the claimed `KEY` (`[75, 69, 89]`); a decoded key without the
marker is rejected as claimed. -/
theorem decrypt_dpapi_encrypted_key_off_by_one :
    base64_decode "RFBBUElLRVk=" = some [68, 80, 65, 80, 73, 75, 69, 89] ∧
      decrypt_dpapi_encrypted_key some "RFBBUElLRVk=" = .ok [73, 75, 69, 89] ∧
      [(73 : UInt8), 75, 69, 89] ≠ [75, 69, 89] ∧
      decrypt_dpapi_encrypted_key some "AAAA"
        = .error (.invalidKeyMarker [0, 0, 0]) := by
  exact ⟨by decide, rfl, by decide, rfl⟩

/-! ## CLI host filter
(packages/cli/src/app.rs lines 193-213 and packages/cli/src/url.rs) -/

/-- An `http::Uri` restricted to what the filter consults: its host
component (`Uri::host()`), when the URI has one. -/
structure Uri where
  host : Option String
deriving DecidableEq, Repr

/-- Rust's `str::split('.')` over the character list (empty segments
preserved; splitting the empty string yields one empty segment). -/
def splitOnDot : List Char → List (List Char)
  | [] => [[]]
  | c :: rest =>
    let ps := splitOnDot rest
    if c = '.' then [] :: ps
    else
      match ps with
      | p :: ps' => (c :: p) :: ps'
      | [] => [[c]]

/-- Rust's `str::ends_with` over character lists. -/
def charsEndsWith (l suffix : List Char) : Bool :=
  decide (l.reverse.take suffix.length = suffix.reverse)

/-- Model of Rust's `Ipv4Addr::from_str`: four dot-separated decimal
octets, each 0-255, digits only, no leading zeros. -/
def parsesAsIpv4 (s : String) : Bool :=
  let parts := splitOnDot s.toList
  decide (parts.length = 4) && parts.all fun p =>
    !p.isEmpty && p.all Char.isDigit
      && (decide (p.length = 1) || !(p.headD ' ' = '0' : Bool))
      && decide (p.length ≤ 3)
      && decide (p.foldl (fun n c => n * 10 + (c.toNat - '0'.toNat)) 0 ≤ 255)

/-- `is_domain` (url.rs lines 23-25): not an IPv6 literal (leading `[`)
and not an IPv4 address. -/
def is_domain (host : String) : Bool :=
  !(host.toList.headD ' ' = '[' : Bool) && !parsesAsIpv4 host

/-- `BaseDomain::base_domain` for `Uri` (url.rs lines 11-21): on a
domain-shaped host, `rsplitn(3, '.')` yields the last segment (`ext`) then
the second-to-last (`base_domain`), joined as `base.ext`; `None` when the
host is missing, not a domain, or has no dot. -/
def base_domain (u : Uri) : Option (List Char) :=
  match u.host with
  | none => none
  | some host =>
    if is_domain host then
      match (splitOnDot host.toList).reverse with
      | ext :: base :: _ => some (base ++ '.' :: ext)
      | _ => none
    else
      none

/-- The `cookie_valid_domain` binding of `filter_hosts` (app.rs lines
194-197): strip one leading `.` from the row's domain. -/
def cookie_valid_domain : List Char → List Char
  | '.' :: rest => rest
  | l => l

/-- The `hosts.iter().any(..)` closure of `filter_hosts` (app.rs lines
204-212).  `none` models the `.unwrap()` panic when a URI has neither a
base domain nor a host (unreachable for parsed absolute URLs). -/
def filterHostsAny (cvd : List Char) : List Uri → Option Bool
  | [] => some false
  | h :: rest =>
    if h.host.map String.toList = some cvd then some true
    else
      match (base_domain h).orElse (fun _ => h.host.map String.toList) with
      | none => none
      | some bd =>
        if charsEndsWith bd cvd then some true else filterHostsAny cvd rest

/-- `filter_hosts` (app.rs lines 193-213): strip one leading dot, reject an
empty remainder, accept everything when the caller supplied no hosts,
otherwise accept when some host matches exactly or its base domain (or
host) ends with the row's domain. -/
def filter_hosts (domain : String) (hosts : List Uri) : Option Bool :=
  let cvd := cookie_valid_domain domain.toList
  if cvd.isEmpty then some false
  else if hosts.isEmpty then some true
  else filterHostsAny cvd hosts

/-! ## Claim C7: host filtering against `{"www.example.com"}` -/

/-- The host set `{"www.example.com"}` as parsed by the CLI. -/
def exampleHosts : List Uri := [{ host := some "www.example.com" }]

/-- C7: with hosts `{"www.example.com"}`, row domains `.example.com`,
`example.com` and `www.example.com` all match, `example.org` does not, and
the empty row domain never matches a non-empty host set. -/
theorem filter_hosts_www_example (hosts : List Uri) (hne : hosts ≠ []) :
    filter_hosts ".example.com" exampleHosts = some true ∧
      filter_hosts "example.com" exampleHosts = some true ∧
      filter_hosts "www.example.com" exampleHosts = some true ∧
      filter_hosts "example.org" exampleHosts = some false ∧
      filter_hosts "" hosts = some false := by
  refine ⟨by decide, by decide, by decide, by decide, rfl⟩

/-- Witness for C7 at the concrete non-empty host set itself. -/
theorem filter_hosts_www_example_witness :
    filter_hosts ".example.com" exampleHosts = some true ∧
      filter_hosts "example.com" exampleHosts = some true ∧
      filter_hosts "www.example.com" exampleHosts = some true ∧
      filter_hosts "example.org" exampleHosts = some false ∧
      filter_hosts "" exampleHosts = some false :=
  filter_hosts_www_example exampleHosts (by simp [exampleHosts])

/-! ## Claim C10: empty host list -/

/-- C10 counterexample: the row domain `"."` is a non-empty string, yet
`filter_hosts` with an empty host list rejects it (stripping the leading
dot leaves nothing), so "accepts every non-empty row domain" fails. -/
theorem filter_hosts_empty_hosts_dot_rejected :
    ("." : String) ≠ "" ∧ filter_hosts "." [] = some false := by
  exact ⟨by decide, rfl⟩

/-- C10 as amended: with an empty host list, `filter_hosts` accepts
exactly the row domains that remain non-empty after stripping one leading
dot; in particular the empty domain is rejected (and so is the bare "."). -/
theorem filter_hosts_empty_hosts (domain : String) :
    filter_hosts domain []
      = some (!(cookie_valid_domain domain.toList).isEmpty) := by
  cases h : cookie_valid_domain domain.data with
  | nil => simp [filter_hosts, String.toList, h]
  | cons c l => simp [filter_hosts, String.toList, h]

end Gateau
